import Mathlib

/-!
# SDE::Application — verification of the session orchestration loop

Shallow embedding of `src/Application.cpp`.

* Strings (`QString`, `char *`) are Lean `String`s.  Character-set conversions
  between `QString` and C strings are taken to be the identity on text; the one
  C-string effect that is modelled is NUL termination (`c_str`).
* Collaborators whose code lives outside `Application.cpp` (`Cookie`,
  `Configuration`, `ThemeMetadata`, `DisplayManager`, `Util`, ...) are not
  interpreted: the values they return are supplied by a `World`, and the calls
  made on them are recorded as `Event`s.
* `while (true)` is unrolled by a bound on the number of iterations; every
  statement about the running loop is proved for every bound.
-/

namespace SDE

/-! ## `QString::arg` -/

/-- Decimal value of a digit character (`QChar::digitValue`, `-1` is `none`).
Only the ASCII digits are given a value. -/
def digitValue (c : Char) : Option Nat :=
  if c.isDigit then some (c.toNat - 48) else none

/-- A piece of a format string, as cut by the scanning loop of `QString::arg`:
either one literal character or a place marker `%n`, `%Ln`, with the text it
was written as. -/
inductive Piece where
  | lit (c : Char)
  | marker (n : Nat) (raw : List Char)
  deriving Repr, DecidableEq

/-- Where the scanner stands inside a possible place marker. -/
inductive ScanState where
  | normal
  | percent (loc : Bool)
  | digit (loc : Bool) (d : Char) (v : Nat)
  deriving Repr, DecidableEq

/-- Text read so far of a place marker without its digits: `%` or `%L`. -/
def markerHead (loc : Bool) : List Char :=
  if loc then ['%', 'L'] else ['%']

/-- The scanning loop shared by `findArgEscapes` and `replaceArgEscapes`: a
`%`, an optional `L`, then one or two digits form a place marker; when no digit
follows, the `%` (and `L`) stay text and the character that was looked at is
examined again. -/
def scan : ScanState → List Char → List Piece
  | .normal, [] => []
  | .normal, c :: cs =>
    if c = '%' then scan (.percent false) cs else .lit c :: scan .normal cs
  | .percent loc, [] => (markerHead loc).map .lit
  | .percent loc, c :: cs =>
    if c = 'L' ∧ loc = false then scan (.percent true) cs
    else
      match digitValue c with
      | some v => scan (.digit loc c v) cs
      | none =>
        (markerHead loc).map .lit ++
          (if c = '%' then scan (.percent false) cs else .lit c :: scan .normal cs)
  | .digit loc d v, [] => [.marker v (markerHead loc ++ [d])]
  | .digit loc d v, c :: cs =>
    match digitValue c with
    | some w => .marker (10 * v + w) (markerHead loc ++ [d, c]) :: scan .normal cs
    | none =>
      .marker v (markerHead loc ++ [d]) ::
        (if c = '%' then scan (.percent false) cs else .lit c :: scan .normal cs)

/-- Lowest place-marker number among the pieces (`ArgEscapeData::min_escape`),
`none` when there is no marker (`occurrences == 0`). -/
def minEscape : List Piece → Option Nat
  | [] => none
  | .lit _ :: ps => minEscape ps
  | .marker n _ :: ps =>
    match minEscape ps with
    | none => some n
    | some m => some (min n m)

/-- Body of `replaceArgEscapes` with field width 0: every marker numbered `m`
becomes `a`, everything else is copied. -/
def replaceEscapes (m : Nat) (a : List Char) : List Piece → List Char
  | [] => []
  | .lit c :: ps => c :: replaceEscapes m a ps
  | .marker n raw :: ps =>
    (if n = m then a else raw) ++ replaceEscapes m a ps

/-- The call `s.arg(a)` of `QString::arg(const QString &)`: the lowest-numbered
place marker of `s` is replaced by `a` at each of its occurrences; without a
marker `s` is returned as it is. -/
def arg (s a : String) : String :=
  match minEscape (scan .normal s.data) with
  | none => s
  | some m => ⟨replaceEscapes m a.data (scan .normal s.data)⟩

/-! ## Theme resolution (`Application::run`, `Application::test`) -/

/-- Settings read through `Configuration::instance()`. -/
structure Configuration where
  themesDir : String
  currentTheme : String
  lockFile : String
  autoUser : String
  cursorTheme : String

/-- What a `ThemeMetadata` object answers. -/
structure ThemeMetadata where
  mainScript : String
  configFile : String

/-- The expression `QString("%1/%2").arg(a).arg(b)`. -/
def joinPath (a b : String) : String :=
  arg (arg "%1/%2" a) b

/-- The expression `QString("%1/metadata.desktop").arg(themePath)`. -/
def metadataPath (themePath : String) : String :=
  arg "%1/metadata.desktop" themePath

/-- Value of `themePath` in `run`, and in `test` for an empty argument. -/
def themePath (cfg : Configuration) : String :=
  joinPath cfg.themesDir cfg.currentTheme

/-- Value of `themePath` in `Application::test(theme)`. -/
def testThemePath (cfg : Configuration) (theme : String) : String :=
  if theme.isEmpty then themePath cfg else theme

/-- Value of `mainScript`. -/
def mainScriptPath (themePath : String) (md : ThemeMetadata) : String :=
  joinPath themePath md.mainScript

/-- Value of `configFile`. -/
def configFilePath (themePath : String) (md : ThemeMetadata) : String :=
  joinPath themePath md.configFile

/-! ## Environment and C strings -/

/-- The text a C function reads from `s.toStdString().c_str()`: the characters
before the first NUL. -/
def cstr (s : String) : String :=
  ⟨s.data.takeWhile (fun c => c != Char.ofNat 0)⟩

/-- The process environment: `none` for a variable that is not set. -/
abbrev Env := String → Option String

/-- The call `getenv(name)`; `nullptr` is `none`. -/
def getenv (env : Env) (name : String) : Option String :=
  env name

/-- The call `setenv(name, value, 1)` on C strings. -/
def setenv (env : Env) (name value : String) : Env :=
  fun k => if k = name then some value else env k

/-! ## Calls made by `Application::run` -/

/-- What the lambda handed to `Util::execute` captures by reference and uses:
the session manager (with the display and cookie it was given), the theme
configuration read from `configFile`, and `mainScript`. -/
structure Greeter where
  display : String
  cookie : String
  mainScript : String
  configFile : String
  deriving Repr, DecidableEq

/-- One call made by `run` on a collaborator, with its arguments and, where the
code uses it, its result. -/
inductive Event where
  | lockFile (path : String)
  | cookieGenerate (result : String)
  | configurationLoad
  | themeMetadata (path : String)
  | themeConfig (path : String)
  | setenv (name value : String)
  | dmSetDisplay (display : String)
  | dmSetCookie (cookie : String)
  | dmStart (result : Bool)
  | qCritical (msg : String)
  | smSetDisplay (display : String)
  | smSetCookie (cookie : String)
  | smAutoLogin
  | utilExecute (g : Greeter) (pid : Int)
  | utilWait (pid : Int)
  | appExec (g : Greeter)
  deriving Repr, DecidableEq

/-- What the collaborators answer during one pass through the loop body. -/
structure IterWorld where
  /-- result of `Cookie::generate()` -/
  cookie : String
  /-- settings after `Configuration::instance()->load()` -/
  config : Configuration
  /-- the `ThemeMetadata` constructed from a descriptor path -/
  metadata : String → ThemeMetadata
  /-- result of `displayManager.start()` -/
  startOk : Bool
  /-- result of `Util::execute` -/
  pid : Int

/-- What the collaborators answer during a call of `run`. -/
structure World where
  /-- settings at entry, before the first reload -/
  config : Configuration
  /-- result of `lock.success()` -/
  lockOk : Bool
  /-- environment at entry -/
  env : Env
  /-- answers during the pass numbered `k` (from 0) -/
  iter : Nat → IterWorld

/-- One pass through the body of `while (true)`. -/
structure IterResult where
  /-- value of `first` on entry, which is its value at `if (first && ...)` -/
  firstIn : Bool
  /-- environment on entry -/
  envIn : Env
  /-- calls made, in order -/
  events : List Event
  /-- environment at the end of the pass -/
  env : Env
  /-- value of `first` at the end of the pass -/
  first : Bool
  /-- the pass ended in `return` -/
  returned : Bool

/-- The message of the `qCritical()` line. -/
def startError : String := "error: could not start display manager."

/-- Body of the `while (true)` loop of `Application::run`; `qt5` is the
preprocessor test `QT_VERSION >= QT_VERSION_CHECK(5, 0, 0)`. -/
def iteration (qt5 : Bool) (first : Bool) (env : Env) (w : IterWorld) : IterResult :=
  let cookie := w.cookie
  let cfg := w.config
  let themePath := themePath cfg
  let metadata := w.metadata (metadataPath themePath)
  let mainScript := mainScriptPath themePath metadata
  let configFile := configFilePath themePath metadata
  let unset := (getenv env "DISPLAY").isNone
  let env1 := if unset then setenv env "DISPLAY" ":0" else env
  let display := (getenv env1 "DISPLAY").getD ""
  let cursor := cstr cfg.cursorTheme
  let env2 := setenv env1 "XCURSOR_THEME" cursor
  let evs : List Event :=
    [.cookieGenerate cookie, .configurationLoad,
     .themeMetadata (metadataPath themePath), .themeConfig configFile]
    ++ (if unset then [.setenv "DISPLAY" ":0"] else [])
    ++ [.setenv "XCURSOR_THEME" cursor,
        .dmSetDisplay display, .dmSetCookie cookie, .dmStart w.startOk]
  if !w.startOk then
    { firstIn := first, envIn := env, events := evs ++ [.qCritical startError], env := env2,
      first := first, returned := true }
  else
    let evs := evs ++ [.smSetDisplay display, .smSetCookie cookie]
    if first && !cfg.autoUser.isEmpty then
      { firstIn := first, envIn := env, events := evs ++ [.smAutoLogin], env := env2,
        first := false, returned := false }
    else
      let g : Greeter := ⟨display, cookie, mainScript, configFile⟩
      { firstIn := first, envIn := env,
        events := evs ++ (if qt5 then [.utilExecute g w.pid, .utilWait w.pid] else [.appExec g]),
        env := env2, first := false, returned := false }

/-- The loop `while (true)`, cut after `fuel` passes: the passes made from
pass number `k` on, entered with `first` and `env`. -/
def loop (qt5 : Bool) (w : Nat → IterWorld) : Nat → Nat → Bool → Env → List IterResult
  | 0, _, _, _ => []
  | fuel + 1, k, first, env =>
    let r := iteration qt5 first env (w k)
    if r.returned then [r] else r :: loop qt5 w fuel (k + 1) r.first r.env

/-- A call of `Application::run`, observed for at most `fuel` passes. -/
structure RunResult where
  /-- calls made before the loop -/
  pre : List Event
  /-- the passes through the loop body, in order -/
  iters : List IterResult
  /-- `run` has returned -/
  returned : Bool

/-- The function `Application::run`. -/
def run (qt5 : Bool) (w : World) (fuel : Nat) : RunResult :=
  let pre := [Event.lockFile w.config.lockFile]
  if !w.lockOk then
    { pre := pre, iters := [], returned := true }
  else
    let iters := loop qt5 w.iter fuel 0 true w.env
    { pre := pre, iters := iters, returned := iters.any (fun r => r.returned) }

/-- All calls of a run, in order. -/
def RunResult.trace (r : RunResult) : List Event :=
  r.pre ++ (r.iters.map (fun i => i.events)).flatten

/-- Environment after the observed part of a run that started in `env`. -/
def RunResult.finalEnv (r : RunResult) (env : Env) : Env :=
  match r.iters.getLast? with
  | none => env
  | some i => i.env

/-! ## Vocabulary for statements about traces -/

/-- A `LockFile` is constructed. -/
def Event.isLock : Event → Bool
  | .lockFile _ => true
  | _ => false

/-- A call of `Cookie::generate`. -/
def Event.isGenerate : Event → Bool
  | .cookieGenerate _ => true
  | _ => false

/-- A call of `setenv`. -/
def Event.isSetenv : Event → Bool
  | .setenv _ _ => true
  | _ => false

/-- A call of `DisplayManager::start`. -/
def Event.isStart : Event → Bool
  | .dmStart _ => true
  | _ => false

/-- A line written with `qCritical()`. -/
def Event.isCritical : Event → Bool
  | .qCritical _ => true
  | _ => false

/-- A call on the `SessionManager`: `setDisplay`, `setCookie` or `autoLogin`. -/
def Event.onSession : Event → Bool
  | .smSetDisplay _ => true
  | .smSetCookie _ => true
  | .smAutoLogin => true
  | _ => false

/-- A call of `setDisplay`, `setCookie` or `start` on either manager. -/
def Event.isBinding : Event → Bool
  | .dmSetDisplay _ => true
  | .dmSetCookie _ => true
  | .dmStart _ => true
  | .smSetDisplay _ => true
  | .smSetCookie _ => true
  | _ => false

/-- A greeter process is spawned: a call of `Util::execute`. -/
def Event.isSpawn : Event → Bool
  | .utilExecute _ _ => true
  | _ => false

/-- The greeter runs inside the calling process (the build without
`Util::execute`). -/
def Event.isAppExec : Event → Bool
  | .appExec _ => true
  | _ => false

/-- The cookies handed to the display and session managers, in call order. -/
def tokensUsed : List Event → List String
  | [] => []
  | .dmSetCookie c :: es => c :: tokensUsed es
  | .smSetCookie c :: es => c :: tokensUsed es
  | _ :: es => tokensUsed es

/-- The display ids handed to the display and session managers, in call
order. -/
def displaysUsed : List Event → List String
  | [] => []
  | .dmSetDisplay d :: es => d :: displaysUsed es
  | .smSetDisplay d :: es => d :: displaysUsed es
  | _ :: es => displaysUsed es

/-- The spawned processes not yet waited for, after the calls `es`, given the
ones `acc` before: `Util::execute` adds its pid, `Util::wait` removes it. -/
def pendingFrom (acc : List Int) : List Event → List Int
  | [] => acc
  | .utilExecute _ pid :: es => pendingFrom (pid :: acc) es
  | .utilWait pid :: es => pendingFrom (acc.erase pid) es
  | _ :: es => pendingFrom acc es

/-- The spawned processes not yet waited for after the calls `es`. -/
def pending (es : List Event) : List Int :=
  pendingFrom [] es

/-- A call of `Util::wait`. -/
def Event.isWait : Event → Bool
  | .utilWait _ => true
  | _ => false

/-- The calls `es` keep the greeter processes in sequence: at the end of `es`
no spawned process is left without its `wait`; at each point of `es` at most one
is; none is when `Cookie::generate` or `DisplayManager::start` is called; and
each `Util::execute` is followed at once by `Util::wait` on the pid it
returned. -/
def Serialized (es : List Event) : Prop :=
  pending es = [] ∧
  ∀ p t, es = p ++ t →
    (pending p).length ≤ 1 ∧
    (∀ e s, t = e :: s → (e.isGenerate = true ∨ e.isStart = true) → pending p = []) ∧
    (∀ g pid s, t = Event.utilExecute g pid :: s → ∃ s1, s = Event.utilWait pid :: s1)

/-- A string without a NUL character. -/
def nulFree (s : String) : Prop :=
  Char.ofNat 0 ∉ s.data

instance (s : String) : Decidable (nulFree s) :=
  inferInstanceAs (Decidable (Char.ofNat 0 ∉ s.data))

/-! ## Example worlds -/

/-- Settings of an installation without auto-login. -/
def sampleConfig : Configuration :=
  { themesDir := "/usr/share/sddm/themes", currentTheme := "elarun",
    lockFile := "/var/run/sddm.pid", autoUser := "", cursorTheme := "default" }

/-- Metadata of the sample theme. -/
def sampleMetadata : ThemeMetadata :=
  { mainScript := "Main.qml", configFile := "theme.conf" }

/-- Answers of one pass: cookie and outcome of the display start are given. -/
def samplePass (cookie : String) (cfg : Configuration) (startOk : Bool) : IterWorld :=
  { cookie := cookie, config := cfg, metadata := fun _ => sampleMetadata,
    startOk := startOk, pid := 4242 }

/-- A world in which the lock is free, `DISPLAY` is unset, each display start
succeeds and `Cookie::generate` answers the same text each time. -/
def sameCookieWorld : World :=
  { config := sampleConfig, lockOk := true, env := fun _ => none,
    iter := fun _ => samplePass "c0ffee" sampleConfig true }

/-- A world in which another instance holds the lock. -/
def lockedWorld : World :=
  { sameCookieWorld with lockOk := false }

/-- A world in which the third display start fails. -/
def thirdStartFails : World :=
  { sameCookieWorld with
    iter := fun k => samplePass "c0ffee" sampleConfig (decide (k ≠ 2)) }

/-- A world with an auto-login user. -/
def autoLoginWorld : World :=
  { sameCookieWorld with
    iter := fun _ => samplePass "c0ffee" { sampleConfig with autoUser := "alice" } true }

/-- A world whose cursor theme setting has a NUL character inside. -/
def nulCursorWorld : World :=
  { sameCookieWorld with
    iter := fun _ => samplePass "c0ffee"
      { sampleConfig with cursorTheme := ⟨['a', Char.ofNat 0, 'b']⟩ } true }

/-- Settings whose themes directory contains the text of a place marker. -/
def markerConfig : Configuration :=
  { sampleConfig with themesDir := "/usr/share/%1" }

end SDE

namespace SDE

/-! ## The loop body -/

theorem iteration_firstIn (qt5 first : Bool) (env : Env) (w : IterWorld) :
    (iteration qt5 first env w).firstIn = first := by
  unfold iteration
  simp only []
  split
  · rfl
  · split <;> rfl

theorem iteration_envIn (qt5 first : Bool) (env : Env) (w : IterWorld) :
    (iteration qt5 first env w).envIn = env := by
  unfold iteration
  simp only []
  split
  · rfl
  · split <;> rfl

theorem iteration_returned (qt5 first : Bool) (env : Env) (w : IterWorld) :
    (iteration qt5 first env w).returned = !w.startOk := by
  unfold iteration
  simp only []
  split
  · simp_all
  · split <;> simp_all

theorem iteration_first (qt5 first : Bool) (env : Env) (w : IterWorld) :
    (iteration qt5 first env w).first = (first && !w.startOk) := by
  unfold iteration
  simp only []
  split
  · simp_all
  · split <;> simp_all

/-! ## The loop -/

theorem loop_getElem? (qt5 : Bool) (w : Nat → IterWorld) :
    ∀ (fuel k : Nat) (first : Bool) (env : Env) (i : Nat) (r : IterResult),
      (loop qt5 w fuel k first env)[i]? = some r →
      r = iteration qt5 (first && decide (i = 0)) r.envIn (w (k + i)) ∧
      (∀ j < i, (w (k + j)).startOk = true) ∧ i < fuel := by
  intro fuel
  induction fuel with
  | zero => intro k first env i r h; simp [loop] at h
  | succ n ih =>
    intro k first env i r h
    cases i with
    | zero =>
      have h0 : r = iteration qt5 first env (w k) := by
        unfold loop at h
        simp only [] at h
        split at h <;> simp at h <;> exact h.symm
      refine ⟨?_, by simp, by omega⟩
      rw [h0, iteration_envIn]
      simp
    | succ j =>
      unfold loop at h
      simp only [] at h
      split at h
      · simp at h
      · rename_i hret
        simp only [List.getElem?_cons_succ] at h
        obtain ⟨h1, h2, h3⟩ := ih _ _ _ _ _ h
        rw [iteration_returned] at hret
        have hk : (w k).startOk = true := by simpa using hret
        refine ⟨?_, ?_, by omega⟩
        · have e : k + 1 + j = k + (j + 1) := by omega
          rw [e] at h1
          rw [iteration_first, hk] at h1
          simpa using h1
        · intro m hm
          cases m with
          | zero => simpa using hk
          | succ m =>
            have := h2 m (by omega)
            have e : k + 1 + m = k + (m + 1) := by omega
            rw [e] at this
            exact this

theorem getLast?_cons_of_ne_nil {α : Type} (a : α) {l : List α} (h : l ≠ []) :
    (a :: l).getLast? = l.getLast? := by
  cases l with
  | nil => exact absurd rfl h
  | cons b t => simp [List.getLast?_cons_cons]

theorem loop_all_started (qt5 : Bool) (w : Nat → IterWorld) :
    ∀ (n k : Nat) (first : Bool) (env : Env),
      (∀ j < n, (w (k + j)).startOk = true) →
      (loop qt5 w n k first env).length = n ∧
      ∀ r ∈ loop qt5 w n k first env, r.returned = false := by
  intro n
  induction n with
  | zero => intro k first env _; simp [loop]
  | succ n ih =>
    intro k first env h
    have hk : (w k).startOk = true := by simpa using h 0 (by omega)
    have hrest : ∀ j < n, (w (k + 1 + j)).startOk = true := by
      intro j hj
      have := h (j + 1) (by omega)
      have e : k + 1 + j = k + (j + 1) := by omega
      rw [e]; exact this
    unfold loop
    simp only [iteration_returned, hk]
    obtain ⟨h1, h2⟩ := ih (k + 1) (iteration qt5 first env (w k)).first
      (iteration qt5 first env (w k)).env hrest
    constructor
    · simp [h1]
    · intro r hr
      simp only [Bool.not_true, Bool.false_eq_true, if_false, List.mem_cons] at hr
      rcases hr with hr | hr
      · rw [hr, iteration_returned, hk]; rfl
      · exact h2 r hr

theorem loop_stops (qt5 : Bool) (w : Nat → IterWorld) :
    ∀ (m fuel k : Nat) (first : Bool) (env : Env),
      (∀ j < m, (w (k + j)).startOk = true) → (w (k + m)).startOk = false → m < fuel →
      loop qt5 w fuel k first env = loop qt5 w (m + 1) k first env ∧
      (loop qt5 w fuel k first env).length = m + 1 ∧
      ∃ env1, (loop qt5 w fuel k first env).getLast? =
        some (iteration qt5 (first && decide (m = 0)) env1 (w (k + m))) := by
  intro m
  induction m with
  | zero =>
    intro fuel k first env _ hfail hfuel
    obtain ⟨f, rfl⟩ : ∃ f, fuel = f + 1 := ⟨fuel - 1, by omega⟩
    have hfail0 : (w k).startOk = false := by simpa using hfail
    refine ⟨?_, ?_, env, ?_⟩ <;>
      simp [loop, iteration_returned, hfail0]
  | succ m ih =>
    intro fuel k first env h hfail hfuel
    obtain ⟨f, rfl⟩ : ∃ f, fuel = f + 1 := ⟨fuel - 1, by omega⟩
    have hk : (w k).startOk = true := by simpa using h 0 (by omega)
    have hrest : ∀ j < m, (w (k + 1 + j)).startOk = true := by
      intro j hj
      have := h (j + 1) (by omega)
      have e : k + 1 + j = k + (j + 1) := by omega
      rw [e]; exact this
    have hfail1 : (w (k + 1 + m)).startOk = false := by
      have e : k + 1 + m = k + (m + 1) := by omega
      rw [e]; exact hfail
    obtain ⟨h1, h2, env1, h3⟩ := ih f (k + 1) (iteration qt5 first env (w k)).first
      (iteration qt5 first env (w k)).env hrest hfail1 (by omega)
    have hne : loop qt5 w f (k + 1) (iteration qt5 first env (w k)).first
        (iteration qt5 first env (w k)).env ≠ [] := by
      intro hnil
      rw [hnil] at h2
      simp at h2
    refine ⟨?_, ?_, env1, ?_⟩
    · rw [loop, loop]
      simp only [iteration_returned, hk, Bool.not_true, Bool.false_eq_true, if_false]
      rw [h1]
    · rw [loop]
      simp only [iteration_returned, hk, Bool.not_true, Bool.false_eq_true, if_false]
      simp [h2]
    · rw [loop]
      simp only [iteration_returned, hk, Bool.not_true, Bool.false_eq_true, if_false]
      rw [getLast?_cons_of_ne_nil _ hne, h3, iteration_first, hk]
      have e : k + 1 + m = k + (m + 1) := by omega
      rw [e]
      simp

theorem loop_envIn_zero (qt5 : Bool) (w : Nat → IterWorld) (fuel k : Nat) (first : Bool)
    (env : Env) (r : IterResult) (h : (loop qt5 w fuel k first env)[0]? = some r) :
    r.envIn = env := by
  cases fuel with
  | zero => simp [loop] at h
  | succ n =>
    unfold loop at h
    simp only [] at h
    split at h <;> simp at h <;> rw [← h, iteration_envIn]

theorem loop_succ (qt5 : Bool) (w : Nat → IterWorld) (n k : Nat) (first : Bool) (env : Env) :
    loop qt5 w (n + 1) k first env =
      if (w k).startOk = true then
        iteration qt5 first env (w k) ::
          loop qt5 w n (k + 1) (iteration qt5 first env (w k)).first
            (iteration qt5 first env (w k)).env
      else [iteration qt5 first env (w k)] := by
  rw [loop]
  simp only [iteration_returned]
  cases (w k).startOk <;> simp

theorem loop_envIn_succ (qt5 : Bool) (w : Nat → IterWorld) :
    ∀ (fuel k : Nat) (first : Bool) (env : Env) (i : Nat) (r r1 : IterResult),
      (loop qt5 w fuel k first env)[i]? = some r →
      (loop qt5 w fuel k first env)[i + 1]? = some r1 →
      r1.envIn = r.env := by
  intro fuel
  induction fuel with
  | zero => intro k first env i r r1 h; simp [loop] at h
  | succ n ih =>
    intro k first env i r r1 h h1
    rw [loop_succ] at h h1
    by_cases hk : (w k).startOk = true
    · rw [if_pos hk] at h h1
      rw [List.getElem?_cons_succ] at h1
      cases i with
      | zero =>
        simp only [List.getElem?_cons_zero, Option.some.injEq] at h
        rw [← h]
        exact loop_envIn_zero qt5 w n (k + 1) _ _ r1 h1
      | succ j =>
        rw [List.getElem?_cons_succ] at h
        exact ih _ _ _ j r r1 h h1
    · rw [if_neg hk] at h1
      simp at h1

/-! ## `run` -/

theorem run_iters_getElem? (qt5 : Bool) (w : World) (fuel i : Nat) (r : IterResult)
    (h : (run qt5 w fuel).iters[i]? = some r) :
    w.lockOk = true ∧ r = iteration qt5 (decide (i = 0)) r.envIn (w.iter i) ∧
      (∀ j < i, (w.iter j).startOk = true) ∧ i < fuel := by
  unfold run at h
  cases hl : w.lockOk with
  | false => simp [hl] at h
  | true =>
    simp only [hl, Bool.not_true, Bool.false_eq_true, if_false] at h
    obtain ⟨h1, h2, h3⟩ := loop_getElem? qt5 w.iter fuel 0 true w.env i r h
    refine ⟨rfl, ?_, ?_, h3⟩
    · simpa using h1
    · intro j hj
      simpa using h2 j hj

theorem run_iters_mem (qt5 : Bool) (w : World) (fuel : Nat) (r : IterResult)
    (h : r ∈ (run qt5 w fuel).iters) :
    ∃ first i, r = iteration qt5 first r.envIn (w.iter i) := by
  obtain ⟨i, hi⟩ := List.mem_iff_getElem?.mp h
  exact ⟨_, i, (run_iters_getElem? qt5 w fuel i r hi).2.1⟩

/-- The display id read by `QString display = getenv("DISPLAY")` after the
default has been applied. -/
theorem display_default (env : Env) :
    (getenv (if (getenv env "DISPLAY").isNone = true then setenv env "DISPLAY" ":0" else env)
      "DISPLAY").getD "" = (env "DISPLAY").getD ":0" := by
  unfold getenv
  cases h : env "DISPLAY" <;> simp [setenv, h]

/-- The calls of one pass, written out. -/
theorem iteration_events (qt5 first : Bool) (env : Env) (w : IterWorld) :
    (iteration qt5 first env w).events =
      [.cookieGenerate w.cookie, .configurationLoad,
        .themeMetadata (metadataPath (themePath w.config)),
        .themeConfig (configFilePath (themePath w.config)
          (w.metadata (metadataPath (themePath w.config))))]
      ++ (if (env "DISPLAY").isNone = true then [Event.setenv "DISPLAY" ":0"] else [])
      ++ [.setenv "XCURSOR_THEME" (cstr w.config.cursorTheme),
          .dmSetDisplay ((env "DISPLAY").getD ":0"), .dmSetCookie w.cookie,
          .dmStart w.startOk]
      ++ (if w.startOk = true then
            [.smSetDisplay ((env "DISPLAY").getD ":0"), .smSetCookie w.cookie]
            ++ (if first = true ∧ w.config.autoUser.isEmpty = false then [Event.smAutoLogin]
                else if qt5 = true then
                  [.utilExecute ⟨(env "DISPLAY").getD ":0", w.cookie,
                      mainScriptPath (themePath w.config)
                        (w.metadata (metadataPath (themePath w.config))),
                      configFilePath (themePath w.config)
                        (w.metadata (metadataPath (themePath w.config)))⟩ w.pid,
                   .utilWait w.pid]
                else
                  [.appExec ⟨(env "DISPLAY").getD ":0", w.cookie,
                      mainScriptPath (themePath w.config)
                        (w.metadata (metadataPath (themePath w.config))),
                      configFilePath (themePath w.config)
                        (w.metadata (metadataPath (themePath w.config)))⟩])
          else [.qCritical startError]) := by
  unfold iteration
  simp only [display_default]
  unfold getenv
  cases w.startOk <;> cases first <;> cases w.config.autoUser.isEmpty <;> cases qt5 <;> simp

/-! ## Display and session manager see the same display id and cookie -/

/-- C1: in every pass of `run` in which a call is made on the session manager,
the calls on the two managers are exactly `displayManager.setDisplay(d)`,
`displayManager.setCookie(c)`, a successful `displayManager.start()`,
`sessionManager.setDisplay(d)`, `sessionManager.setCookie(c)`, in this order and
with the same `d` and the same `c`, for any answers of the collaborators and
any environment. -/
theorem session_binding_equals_display_binding (qt5 : Bool) (w : World) (fuel : Nat)
    (r : IterResult) (hr : r ∈ (run qt5 w fuel).iters)
    (hsm : ∃ e ∈ r.events, e.onSession = true) :
    ∃ (pre post : List Event) (d c : String),
      r.events = pre ++ [.dmSetDisplay d, .dmSetCookie c, .dmStart true,
        .smSetDisplay d, .smSetCookie c] ++ post ∧
      (∀ e ∈ pre, e.isBinding = false) ∧ (∀ e ∈ post, e.isBinding = false) := by
  obtain ⟨first, i, hri⟩ := run_iters_mem qt5 w fuel r hr
  obtain ⟨e, he, hes⟩ := hsm
  rw [hri, iteration_events] at he
  have hstart : (w.iter i).startOk = true := by
    cases hs : (w.iter i).startOk with
    | true => rfl
    | false =>
      rw [hs] at he
      simp only [Bool.false_eq_true, if_false, List.mem_append, List.mem_cons,
        List.mem_singleton, List.not_mem_nil, or_false] at he
      rcases he with ((he | he) | he) | he
      · rcases he with he | he | he | he <;> (rw [he] at hes; simp [Event.onSession] at hes)
      · split at he
        · simp only [List.mem_singleton] at he
          rw [he] at hes; simp [Event.onSession] at hes
        · simp at he
      · rcases he with he | he | he | he <;> (rw [he] at hes; simp [Event.onSession] at hes)
      · rw [he] at hes; simp [Event.onSession] at hes
  refine ⟨[.cookieGenerate (w.iter i).cookie, .configurationLoad,
        .themeMetadata (metadataPath (themePath (w.iter i).config)),
        .themeConfig (configFilePath (themePath (w.iter i).config)
          ((w.iter i).metadata (metadataPath (themePath (w.iter i).config))))]
      ++ (if (r.envIn "DISPLAY").isNone = true then [Event.setenv "DISPLAY" ":0"] else [])
      ++ [.setenv "XCURSOR_THEME" (cstr (w.iter i).config.cursorTheme)],
    (if first = true ∧ (w.iter i).config.autoUser.isEmpty = false then [Event.smAutoLogin]
      else if qt5 = true then
        [.utilExecute ⟨(r.envIn "DISPLAY").getD ":0", (w.iter i).cookie,
            mainScriptPath (themePath (w.iter i).config)
              ((w.iter i).metadata (metadataPath (themePath (w.iter i).config))),
            configFilePath (themePath (w.iter i).config)
              ((w.iter i).metadata (metadataPath (themePath (w.iter i).config)))⟩ (w.iter i).pid,
         .utilWait (w.iter i).pid]
      else
        [.appExec ⟨(r.envIn "DISPLAY").getD ":0", (w.iter i).cookie,
            mainScriptPath (themePath (w.iter i).config)
              ((w.iter i).metadata (metadataPath (themePath (w.iter i).config))),
            configFilePath (themePath (w.iter i).config)
              ((w.iter i).metadata (metadataPath (themePath (w.iter i).config)))⟩]),
    (r.envIn "DISPLAY").getD ":0", (w.iter i).cookie, ?_, ?_, ?_⟩
  · conv_lhs => rw [hri, iteration_events]
    simp [hstart]
  · intro e he
    simp only [List.mem_append, List.mem_cons, List.mem_singleton, List.not_mem_nil,
      or_false] at he
    rcases he with (he | he) | he
    · rcases he with he | he | he | he <;> rw [he] <;> rfl
    · split at he
      · simp only [List.mem_singleton] at he
        rw [he]; rfl
      · simp at he
    · rw [he]; rfl
  · intro e he
    split at he
    · simp only [List.mem_singleton] at he
      rw [he]; rfl
    · split at he
      · simp only [List.mem_cons, List.mem_singleton, List.not_mem_nil, or_false] at he
        rcases he with he | he <;> rw [he] <;> rfl
      · simp only [List.mem_singleton] at he
        rw [he]; rfl

/-- Witness of C1: the first pass of a run whose display starts. -/
theorem session_binding_equals_display_binding_witness :
    ∃ (pre post : List Event) (d c : String),
      (iteration true true sameCookieWorld.env (sameCookieWorld.iter 0)).events =
        pre ++ [.dmSetDisplay d, .dmSetCookie c, .dmStart true,
          .smSetDisplay d, .smSetCookie c] ++ post ∧
      (∀ e ∈ pre, e.isBinding = false) ∧ (∀ e ∈ post, e.isBinding = false) :=
  session_binding_equals_display_binding true sameCookieWorld 1
    (iteration true true sameCookieWorld.env (sameCookieWorld.iter 0))
    (List.Mem.head _) ⟨.smSetCookie "c0ffee", by decide, rfl⟩

/-! ## The cookie of a pass -/

theorem iteration_tokensUsed (qt5 first : Bool) (env : Env) (w : IterWorld) :
    tokensUsed (iteration qt5 first env w).events =
      if w.startOk = true then [w.cookie, w.cookie] else [w.cookie] := by
  rw [iteration_events]
  cases w.startOk <;> cases first <;> cases w.config.autoUser.isEmpty <;> cases qt5 <;>
    cases (env "DISPLAY").isNone <;> simp [tokensUsed]

theorem iteration_head (qt5 first : Bool) (env : Env) (w : IterWorld) :
    (iteration qt5 first env w).events.head? = some (.cookieGenerate w.cookie) := by
  rw [iteration_events]
  simp

theorem iteration_countP_isGenerate (qt5 first : Bool) (env : Env) (w : IterWorld) :
    (iteration qt5 first env w).events.countP Event.isGenerate = 1 := by
  rw [iteration_events]
  cases w.startOk <;> cases first <;> cases w.config.autoUser.isEmpty <;> cases qt5 <;>
    cases (env "DISPLAY").isNone <;> simp [Event.isGenerate, List.countP_cons]

/-- C2, as the claim states it, fails: when `Cookie::generate` answers the same
text twice, two consecutive passes hand the same cookie to the managers. -/
theorem consecutive_tokens_can_coincide :
    (run true sameCookieWorld 2).iters.map (fun r => tokensUsed r.events) =
      [["c0ffee", "c0ffee"], ["c0ffee", "c0ffee"]] := by
  decide

/-- C2, amended: each pass begins with its one call of `Cookie::generate`, the
cookie handed to the display manager (and to the session manager, when the
display started) is the result of that call, and the cookies of two consecutive
passes differ exactly when the two results of `Cookie::generate` differ. -/
theorem token_is_result_of_this_pass (qt5 : Bool) (w : World) (fuel i : Nat) (r : IterResult)
    (h : (run qt5 w fuel).iters[i]? = some r) :
    r.events.head? = some (.cookieGenerate (w.iter i).cookie) ∧
    r.events.countP Event.isGenerate = 1 ∧
    tokensUsed r.events =
      (if (w.iter i).startOk = true then [(w.iter i).cookie, (w.iter i).cookie]
        else [(w.iter i).cookie]) ∧
    ∀ r1, (run qt5 w fuel).iters[i + 1]? = some r1 →
      ((∀ c ∈ tokensUsed r.events, ∀ c1 ∈ tokensUsed r1.events, c ≠ c1) ↔
        (w.iter i).cookie ≠ (w.iter (i + 1)).cookie) := by
  obtain ⟨_, hri, _, _⟩ := run_iters_getElem? qt5 w fuel i r h
  have ht : tokensUsed r.events =
      (if (w.iter i).startOk = true then [(w.iter i).cookie, (w.iter i).cookie]
        else [(w.iter i).cookie]) := by
    rw [hri, iteration_tokensUsed]
  refine ⟨?_, ?_, ht, ?_⟩
  · rw [hri, iteration_head]
  · rw [hri, iteration_countP_isGenerate]
  · intro r1 h1
    obtain ⟨_, hr1, _, _⟩ := run_iters_getElem? qt5 w fuel (i + 1) r1 h1
    have ht1 : tokensUsed r1.events =
        (if (w.iter (i + 1)).startOk = true then
          [(w.iter (i + 1)).cookie, (w.iter (i + 1)).cookie]
          else [(w.iter (i + 1)).cookie]) := by
      rw [hr1, iteration_tokensUsed]
    rw [ht, ht1]
    cases (w.iter i).startOk <;> cases (w.iter (i + 1)).startOk <;> simp

/-- Witness of amended C2: the first of two passes. -/
theorem token_is_result_of_this_pass_witness :
    (iteration true true sameCookieWorld.env (sameCookieWorld.iter 0)).events.head? =
      some (.cookieGenerate "c0ffee") ∧
    (iteration true true sameCookieWorld.env (sameCookieWorld.iter 0)).events.countP
      Event.isGenerate = 1 :=
  have h := token_is_result_of_this_pass true sameCookieWorld 2 0
    (iteration true true sameCookieWorld.env (sameCookieWorld.iter 0)) rfl
  ⟨h.1, h.2.1⟩

/-! ## Counting calls in a pass and in a run -/

theorem iteration_countP_isLock (qt5 first : Bool) (env : Env) (w : IterWorld) :
    (iteration qt5 first env w).events.countP Event.isLock = 0 := by
  rw [iteration_events]
  cases w.startOk <;> cases first <;> cases w.config.autoUser.isEmpty <;> cases qt5 <;>
    cases (env "DISPLAY").isNone <;> simp [Event.isLock, List.countP_cons]

theorem iteration_countP_isCritical (qt5 first : Bool) (env : Env) (w : IterWorld) :
    (iteration qt5 first env w).events.countP Event.isCritical =
      if w.startOk = true then 0 else 1 := by
  rw [iteration_events]
  cases w.startOk <;> cases first <;> cases w.config.autoUser.isEmpty <;> cases qt5 <;>
    cases (env "DISPLAY").isNone <;> simp [Event.isCritical, List.countP_cons]

/-- Calls of the passes of a loop, in order. -/
theorem loop_events_succ (qt5 : Bool) (w : Nat → IterWorld) (n k : Nat) (first : Bool)
    (env : Env) (p : Event → Bool) :
    (((loop qt5 w (n + 1) k first env).map (fun i => i.events)).flatten).countP p =
      (iteration qt5 first env (w k)).events.countP p +
        if (w k).startOk = true then
          (((loop qt5 w n (k + 1) (iteration qt5 first env (w k)).first
            (iteration qt5 first env (w k)).env).map (fun i => i.events)).flatten).countP p
        else 0 := by
  rw [loop_succ]
  cases (w k).startOk <;> simp

theorem loop_countP_isLock (qt5 : Bool) (w : Nat → IterWorld) :
    ∀ (n k : Nat) (first : Bool) (env : Env),
      (((loop qt5 w n k first env).map (fun i => i.events)).flatten).countP Event.isLock = 0 := by
  intro n
  induction n with
  | zero => intro k first env; simp [loop]
  | succ n ih =>
    intro k first env
    rw [loop_events_succ, iteration_countP_isLock, ih]
    simp

theorem loop_countP_isGenerate (qt5 : Bool) (w : Nat → IterWorld) :
    ∀ (n k : Nat) (first : Bool) (env : Env),
      (((loop qt5 w n k first env).map (fun i => i.events)).flatten).countP Event.isGenerate =
        (loop qt5 w n k first env).length := by
  intro n
  induction n with
  | zero => intro k first env; simp [loop]
  | succ n ih =>
    intro k first env
    rw [loop_events_succ, iteration_countP_isGenerate, ih, loop_succ]
    cases (w k).startOk <;> simp [Nat.add_comm]

theorem loop_countP_isCritical (qt5 : Bool) (w : Nat → IterWorld) :
    ∀ (n k : Nat) (first : Bool) (env : Env),
      (((loop qt5 w n k first env).map (fun i => i.events)).flatten).countP Event.isCritical =
        if (loop qt5 w n k first env).any (fun r => r.returned) = true then 1 else 0 := by
  intro n
  induction n with
  | zero => intro k first env; simp [loop]
  | succ n ih =>
    intro k first env
    rw [loop_events_succ, iteration_countP_isCritical, ih, loop_succ]
    cases hk : (w k).startOk <;> simp [iteration_returned, hk]

theorem loop_any_returned (qt5 : Bool) (w : Nat → IterWorld) :
    ∀ (n k : Nat) (first : Bool) (env : Env),
      (loop qt5 w n k first env).any (fun r => r.returned) = true ↔
        ∃ j < n, (w (k + j)).startOk = false := by
  intro n
  induction n with
  | zero => intro k first env; simp [loop]
  | succ n ih =>
    intro k first env
    rw [loop_succ]
    cases hk : (w k).startOk with
    | false =>
      simp only [Bool.false_eq_true, if_false, List.any_cons, List.any_nil, Bool.or_false,
        iteration_returned, hk, Bool.not_false, true_iff]
      exact ⟨0, by omega, by simpa using hk⟩
    | true =>
      simp only [if_true, List.any_cons, iteration_returned, hk, Bool.not_true, Bool.false_or]
      rw [ih]
      constructor
      · rintro ⟨j, hj, hf⟩
        refine ⟨j + 1, by omega, ?_⟩
        have e : k + (j + 1) = k + 1 + j := by omega
        rw [e]; exact hf
      · rintro ⟨j, hj, hf⟩
        cases j with
        | zero => simp [hk] at hf
        | succ j =>
          refine ⟨j, by omega, ?_⟩
          have e : k + 1 + j = k + (j + 1) := by omega
          rw [e]; exact hf

theorem loop_length_ge (qt5 : Bool) (w : Nat → IterWorld) :
    ∀ (n fuel k : Nat) (first : Bool) (env : Env),
      (∀ j < n, (w (k + j)).startOk = true) → n ≤ fuel →
      n ≤ (loop qt5 w fuel k first env).length := by
  intro n
  induction n with
  | zero => intro fuel k first env _ _; omega
  | succ n ih =>
    intro fuel k first env h hfuel
    obtain ⟨f, rfl⟩ : ∃ f, fuel = f + 1 := ⟨fuel - 1, by omega⟩
    have hk : (w k).startOk = true := by simpa using h 0 (by omega)
    have hrest : ∀ j < n, (w (k + 1 + j)).startOk = true := by
      intro j hj
      have := h (j + 1) (by omega)
      have e : k + 1 + j = k + (j + 1) := by omega
      rw [e]; exact this
    rw [loop_succ, if_pos hk, List.length_cons]
    have := ih f (k + 1) (iteration qt5 first env (w k)).first
      (iteration qt5 first env (w k)).env hrest (by omega)
    omega

/-! ## Leaving `run` -/

/-- C3: the lock file is constructed once in a run, as its first call; and when
`lock.success()` is false, it is the only call: `run` has returned, no pass of
the loop was made and the environment is the one at entry. -/
theorem lock_failure_does_nothing (qt5 : Bool) (w : World) (fuel : Nat) :
    (∃ rest, (run qt5 w fuel).trace = .lockFile w.config.lockFile :: rest ∧
      rest.countP Event.isLock = 0) ∧
    (w.lockOk = false →
      (run qt5 w fuel).trace = [.lockFile w.config.lockFile] ∧
      (run qt5 w fuel).iters = [] ∧ (run qt5 w fuel).returned = true ∧
      (run qt5 w fuel).finalEnv w.env = w.env) := by
  constructor
  · refine ⟨(((run qt5 w fuel).iters.map (fun i => i.events)).flatten), ?_, ?_⟩
    · unfold RunResult.trace run
      cases w.lockOk <;> simp
    · unfold run
      cases w.lockOk with
      | false => simp
      | true =>
        simp only [Bool.not_true, Bool.false_eq_true, if_false]
        exact loop_countP_isLock qt5 w.iter fuel 0 true w.env
  · intro hl
    simp [run, RunResult.trace, RunResult.finalEnv, hl]

/-- Witness of C3: a run that finds the lock held. -/
theorem lock_failure_does_nothing_witness :
    lockedWorld.lockOk = false ∧
    (run true lockedWorld 5).trace = [.lockFile "/var/run/sddm.pid"] ∧
    (run true lockedWorld 5).iters = [] ∧ (run true lockedWorld 5).returned = true :=
  have h := (lock_failure_does_nothing true lockedWorld 5).2 rfl
  ⟨rfl, h.1, h.2.1, h.2.2.1⟩

/-- The calls of a pass whose display start fails. -/
theorem iteration_events_start_failed (qt5 first : Bool) (env : Env) (w : IterWorld)
    (h : w.startOk = false) :
    ∃ pre, (iteration qt5 first env w).events =
        pre ++ [.dmStart false, .qCritical startError] ∧
      ∀ e ∈ pre, e.isCritical = false ∧ e.onSession = false ∧ e.isSpawn = false ∧
        e.isAppExec = false := by
  refine ⟨[.cookieGenerate w.cookie, .configurationLoad,
        .themeMetadata (metadataPath (themePath w.config)),
        .themeConfig (configFilePath (themePath w.config)
          (w.metadata (metadataPath (themePath w.config))))]
      ++ (if (env "DISPLAY").isNone = true then [Event.setenv "DISPLAY" ":0"] else [])
      ++ [.setenv "XCURSOR_THEME" (cstr w.config.cursorTheme),
          .dmSetDisplay ((env "DISPLAY").getD ":0"), .dmSetCookie w.cookie], ?_, ?_⟩
  · rw [iteration_events, h]
    simp
  · intro e he
    simp only [List.mem_append, List.mem_cons, List.mem_singleton, List.not_mem_nil,
      or_false] at he
    rcases he with (he | he) | he
    · rcases he with he | he | he | he <;> rw [he] <;> exact ⟨rfl, rfl, rfl, rfl⟩
    · split at he
      · simp only [List.mem_singleton] at he
        rw [he]; exact ⟨rfl, rfl, rfl, rfl⟩
      · simp at he
    · rcases he with he | he | he <;> rw [he] <;> exact ⟨rfl, rfl, rfl, rfl⟩

/-- C4: when the lock is held by this run and the display start of pass `k` is
the first that fails, `run` returns in pass `k`: the pass ends with the failed
`start()` and the `qCritical` line, and before them makes no call on the session
manager and starts no greeter; the whole run has one `qCritical` line and
`k + 1` calls of `Cookie::generate`, however long it is observed. -/
theorem start_failure_ends_run (qt5 : Bool) (w : World) (fuel k : Nat)
    (hlock : w.lockOk = true) (hprev : ∀ j < k, (w.iter j).startOk = true)
    (hfail : (w.iter k).startOk = false) (hfuel : k < fuel) :
    (run qt5 w fuel).returned = true ∧
    (run qt5 w fuel).iters.length = k + 1 ∧
    (∃ last pre, (run qt5 w fuel).iters.getLast? = some last ∧ last.returned = true ∧
      last.events = pre ++ [.dmStart false, .qCritical startError] ∧
      ∀ e ∈ pre, e.isCritical = false ∧ e.onSession = false ∧ e.isSpawn = false ∧
        e.isAppExec = false) ∧
    (run qt5 w fuel).trace.countP Event.isCritical = 1 ∧
    (run qt5 w fuel).trace.countP Event.isGenerate = k + 1 ∧
    (run qt5 w fuel).trace = (run qt5 w (k + 1)).trace := by
  have hprev0 : ∀ j < k, (w.iter (0 + j)).startOk = true := by
    intro j hj; simpa using hprev j hj
  have hfail0 : (w.iter (0 + k)).startOk = false := by simpa using hfail
  obtain ⟨h1, h2, env1, h3⟩ := loop_stops qt5 w.iter k fuel 0 true w.env hprev0 hfail0 hfuel
  have hany : (loop qt5 w.iter fuel 0 true w.env).any (fun r => r.returned) = true :=
    (loop_any_returned qt5 w.iter fuel 0 true w.env).mpr ⟨k, hfuel, hfail0⟩
  have hiters : (run qt5 w fuel).iters = loop qt5 w.iter fuel 0 true w.env := by
    simp [run, hlock]
  have hiters1 : (run qt5 w (k + 1)).iters = loop qt5 w.iter (k + 1) 0 true w.env := by
    simp [run, hlock]
  have hpre : ∀ f, (run qt5 w f).pre = [.lockFile w.config.lockFile] := by
    intro f
    unfold run
    cases w.lockOk <;> simp
  refine ⟨?_, ?_, ?_, ?_, ?_, ?_⟩
  · simp [run, hlock, hany]
  · rw [hiters, h2]
  · obtain ⟨pre, hp1, hp2⟩ :=
      iteration_events_start_failed qt5 (true && decide (k = 0)) env1 (w.iter (0 + k)) hfail0
    refine ⟨_, pre, ?_, ?_, hp1, hp2⟩
    · rw [hiters, h3]
    · rw [iteration_returned, hfail0]; rfl
  · unfold RunResult.trace
    rw [hpre, hiters, List.countP_append, loop_countP_isCritical, hany]
    simp [Event.isCritical, List.countP_cons]
  · unfold RunResult.trace
    rw [hpre, hiters, List.countP_append, loop_countP_isGenerate, h2]
    simp [Event.isGenerate, List.countP_cons]
  · unfold RunResult.trace
    rw [hpre, hpre, hiters, hiters1, h1]

/-- Witness of C4: the third display start fails. -/
theorem start_failure_ends_run_witness :
    (run true thirdStartFails 7).returned = true ∧
    (run true thirdStartFails 7).iters.length = 3 ∧
    (run true thirdStartFails 7).trace.countP Event.isCritical = 1 ∧
    (run true thirdStartFails 7).trace.countP Event.isGenerate = 3 :=
  have h := start_failure_ends_run true thirdStartFails 7 2 rfl
    (by intro j hj; interval_cases j <;> rfl) rfl (by decide)
  ⟨h.1, h.2.1, h.2.2.2.1, h.2.2.2.2.1⟩

/-- C8: `run` has returned within `n` passes only if the lock was not acquired
or one of the first `n` display starts failed; and when the lock is acquired and
the first `n` display starts succeed, a run observed for `fuel ≥ n` passes makes
at least `n` passes, none of the first `n` of which returns, whatever the
auto-login user, the outcome of auto-login or of the greeter. -/
theorem run_returns_only_on_lock_or_start_failure (qt5 : Bool) (w : World) (n : Nat) :
    ((run qt5 w n).returned = true ↔
      (w.lockOk = false ∨ ∃ k < n, (w.iter k).startOk = false)) ∧
    (w.lockOk = true → (∀ k < n, (w.iter k).startOk = true) →
      ∀ fuel, n ≤ fuel →
        n ≤ (run qt5 w fuel).iters.length ∧
        ∀ i < n, ∀ r, (run qt5 w fuel).iters[i]? = some r → r.returned = false) := by
  constructor
  · unfold run
    cases hl : w.lockOk with
    | false => simp
    | true =>
      simp only [Bool.not_true, Bool.false_eq_true, if_false, false_or]
      rw [loop_any_returned]
      simp
  · intro hl hs fuel hfuel
    have hiters : (run qt5 w fuel).iters = loop qt5 w.iter fuel 0 true w.env := by
      simp [run, hl]
    constructor
    · rw [hiters]
      exact loop_length_ge qt5 w.iter n fuel 0 true w.env
        (by intro j hj; simpa using hs j hj) hfuel
    · intro i hi r hr
      obtain ⟨_, hri, _, _⟩ := run_iters_getElem? qt5 w fuel i r hr
      rw [hri, iteration_returned, hs i hi]
      rfl

/-- Witness of C8: four passes of a run with an auto-login user. -/
theorem run_returns_only_on_lock_or_start_failure_witness :
    4 ≤ (run true autoLoginWorld 4).iters.length ∧
    ∀ i < 4, ∀ r, (run true autoLoginWorld 4).iters[i]? = some r → r.returned = false :=
  (run_returns_only_on_lock_or_start_failure true autoLoginWorld 4).2 rfl
    (by intro k _; rfl) 4 (by decide)

/-! ## The first-run flag and the auto-login branch -/

/-- C5: in the pass numbered `i` of a run the flag `first` is true at the branch
exactly when `i = 0`; a pass that does not return leaves it false, on the
auto-login branch and on the greeter branch alike, and a pass entered with the
flag false leaves it false. -/
theorem first_flag_true_only_in_first_pass (qt5 : Bool) (w : World) (fuel i : Nat)
    (r : IterResult) (h : (run qt5 w fuel).iters[i]? = some r) :
    r.firstIn = decide (i = 0) ∧ (r.returned = false → r.first = false) ∧
      (r.firstIn = false → r.first = false) := by
  obtain ⟨_, hri, _, _⟩ := run_iters_getElem? qt5 w fuel i r h
  have hin := congrArg IterResult.firstIn hri
  have hout := congrArg IterResult.first hri
  have hret := congrArg IterResult.returned hri
  rw [iteration_firstIn] at hin
  rw [iteration_first] at hout
  rw [iteration_returned] at hret
  refine ⟨hin, ?_, ?_⟩
  · intro hr
    rw [hr] at hret
    rw [hout]
    cases hs : (w.iter i).startOk
    · rw [hs] at hret; simp at hret
    · simp
  · intro hf
    rw [hf] at hin
    rw [hout, ← hin]
    rfl

/-- Witness of C5: the second pass after an auto-login in the first. -/
theorem first_flag_true_only_in_first_pass_witness :
    (iteration true false (iteration true true autoLoginWorld.env (autoLoginWorld.iter 0)).env
      (autoLoginWorld.iter 1)).firstIn = decide (1 = 0) :=
  (first_flag_true_only_in_first_pass true autoLoginWorld 2 1
    (iteration true false (iteration true true autoLoginWorld.env (autoLoginWorld.iter 0)).env
      (autoLoginWorld.iter 1)) rfl).1

theorem isEmpty_eq_false_iff (s : String) : s.isEmpty = false ↔ s ≠ "" := by
  rw [Ne, ← String.isEmpty_iff]
  simp

/-- C6, as the claim states it, fails: in the build without `Util::execute` a
pass whose display started and which does not auto-login spawns no process; the
greeter runs inside the calling process. -/
theorem no_spawn_in_build_without_execute :
    (run false sameCookieWorld 1).iters.map (fun r =>
        (decide (Event.dmStart true ∈ r.events), decide (Event.smAutoLogin ∈ r.events),
          r.events.countP Event.isSpawn, r.events.countP Event.isAppExec)) =
      [(true, false, 0, 1)] := by
  decide

/-- C6, amended: in a pass of `run` whose display start succeeded, `autoLogin()`
is called exactly when `first` is true and the auto-login user is not empty;
then it is the last call of the pass, no greeter is spawned or run, and the loop
goes on; otherwise `autoLogin()` is not called and the greeter is started once:
spawned with `Util::execute` in the Qt 5 build, run inside the calling process
in the other build. -/
theorem autologin_or_one_greeter (qt5 : Bool) (w : World) (fuel i : Nat) (r : IterResult)
    (h : (run qt5 w fuel).iters[i]? = some r) (hstart : (w.iter i).startOk = true) :
    (Event.smAutoLogin ∈ r.events ↔
      (r.firstIn = true ∧ (w.iter i).config.autoUser ≠ "")) ∧
    (Event.smAutoLogin ∈ r.events →
      r.events.countP Event.isSpawn = 0 ∧ r.events.countP Event.isAppExec = 0 ∧
      r.events.getLast? = some Event.smAutoLogin ∧ r.returned = false) ∧
    (Event.smAutoLogin ∉ r.events →
      r.events.countP Event.isSpawn = (if qt5 = true then 1 else 0) ∧
      r.events.countP Event.isAppExec = (if qt5 = true then 0 else 1) ∧
      r.returned = false) := by
  obtain ⟨_, hri, _, _⟩ := run_iters_getElem? qt5 w fuel i r h
  have hin := congrArg IterResult.firstIn hri
  have hret := congrArg IterResult.returned hri
  have hev := congrArg IterResult.events hri
  rw [iteration_firstIn] at hin
  rw [iteration_returned, hstart] at hret
  rw [iteration_events, hstart] at hev
  rw [← isEmpty_eq_false_iff, hin, hev]
  cases decide (i = 0) <;> cases (w.iter i).config.autoUser.isEmpty <;> cases qt5 <;>
    cases (r.envIn "DISPLAY").isNone <;>
    simp [Event.isSpawn, Event.isAppExec, List.countP_cons, hret]

/-- Witness of amended C6: the first pass with an auto-login user. -/
theorem autologin_or_one_greeter_witness :
    Event.smAutoLogin ∈
        (iteration true true autoLoginWorld.env (autoLoginWorld.iter 0)).events ↔
      ((iteration true true autoLoginWorld.env (autoLoginWorld.iter 0)).firstIn = true ∧
        (autoLoginWorld.iter 0).config.autoUser ≠ "") :=
  (autologin_or_one_greeter true autoLoginWorld 1 0
    (iteration true true autoLoginWorld.env (autoLoginWorld.iter 0)) rfl rfl).1

/-! ## The greeter process is waited for -/

theorem pendingFrom_append (a b : List Event) :
    ∀ acc, pendingFrom acc (a ++ b) = pendingFrom (pendingFrom acc a) b := by
  induction a with
  | nil => intro acc; rfl
  | cons e a ih =>
    intro acc
    cases e <;> simp [pendingFrom, ih]

theorem pending_append (a b : List Event) (h : pending a = []) :
    pending (a ++ b) = pending b := by
  unfold pending at *
  rw [pendingFrom_append, h]

theorem serialized_nil : Serialized [] := by
  refine ⟨rfl, ?_⟩
  intro p t h
  have hp : p = [] := by
    cases p with
    | nil => rfl
    | cons a l => simp at h
  have ht : t = [] := by
    rw [hp] at h
    simpa using h.symm
  subst hp; subst ht
  refine ⟨by simp [pending, pendingFrom], ?_, ?_⟩
  · intro e s hes; simp at hes
  · intro g pid s hes; simp at hes

theorem serialized_append (a b : List Event) (ha : Serialized a) (hb : Serialized b) :
    Serialized (a ++ b) := by
  refine ⟨?_, ?_⟩
  · rw [pending_append a b ha.1]; exact hb.1
  · intro p t h
    rcases List.append_eq_append_iff.mp h with ⟨a1, hp, hbt⟩ | ⟨c, hap, htc⟩
    · have hpend : pending p = pending a1 := by
        rw [hp]; exact pending_append a a1 ha.1
      rw [hpend]
      exact hb.2 a1 t hbt
    · obtain ⟨h1, h2, h3⟩ := ha.2 p c hap
      refine ⟨h1, ?_, ?_⟩
      · intro e s hes hk
        cases c with
        | nil =>
          have hpa : a = p := by simpa using hap
          rw [← hpa]; exact ha.1
        | cons e1 c1 =>
          rw [hes] at htc
          simp only [List.cons_append, List.cons.injEq] at htc
          exact h2 e1 c1 rfl (by rw [← htc.1]; exact hk)
      · intro g pid s hes
        cases c with
        | nil =>
          rw [hes] at htc
          simp only [List.nil_append] at htc
          exact (hb.2 [] b rfl).2.2 g pid s htc.symm
        | cons e1 c1 =>
          rw [hes] at htc
          simp only [List.cons_append, List.cons.injEq] at htc
          obtain ⟨s1, hs1⟩ := h3 g pid c1 (by rw [← htc.1])
          exact ⟨s1 ++ b, by rw [htc.2, hs1]; rfl⟩

theorem serialized_single (e : Event) (h1 : e.isSpawn = false) (h2 : e.isWait = false) :
    Serialized [e] := by
  have hpe : pending [e] = [] := by
    cases e <;> simp_all [pending, pendingFrom, Event.isSpawn, Event.isWait]
  refine ⟨hpe, ?_⟩
  intro p t h
  cases p with
  | nil =>
    refine ⟨by simp [pending, pendingFrom], fun _ _ _ _ => rfl, ?_⟩
    intro g pid s hes
    rw [hes] at h
    simp only [List.nil_append, List.cons.injEq] at h
    rw [h.1] at h1
    simp [Event.isSpawn] at h1
  | cons a l =>
    simp only [List.cons_append, List.cons.injEq] at h
    have hl : l = [] ∧ t = [] := by
      have := h.2
      cases l with
      | nil => exact ⟨rfl, by simpa using this.symm⟩
      | cons b m => simp at this
    obtain ⟨hl1, hl2⟩ := hl
    subst hl1; subst hl2
    rw [← h.1, hpe]
    refine ⟨by simp, ?_, ?_⟩
    · intro e s hes; simp at hes
    · intro g pid s hes; simp at hes

theorem serialized_plain (es : List Event)
    (h : es.all (fun e => !e.isSpawn && !e.isWait) = true) : Serialized es := by
  induction es with
  | nil => exact serialized_nil
  | cons e es ih =>
    simp only [List.all_cons, Bool.and_eq_true, Bool.not_eq_true'] at h
    have := serialized_append [e] es (serialized_single e h.1.1 h.1.2)
      (ih (by simpa using h.2))
    simpa using this

theorem serialized_execute_wait (g : Greeter) (pid : Int) :
    Serialized [.utilExecute g pid, .utilWait pid] := by
  refine ⟨by simp [pending, pendingFrom], ?_⟩
  intro p t h
  cases p with
  | nil =>
    refine ⟨by simp [pending, pendingFrom], fun _ _ _ _ => rfl, ?_⟩
    intro g1 pid1 s hes
    rw [hes] at h
    simp only [List.nil_append, List.cons.injEq, Event.utilExecute.injEq] at h
    exact ⟨[], by rw [← h.2, h.1.2]⟩
  | cons a l =>
    simp only [List.cons_append, List.cons.injEq] at h
    obtain ⟨ha, hl⟩ := h
    cases l with
    | nil =>
      simp only [List.nil_append] at hl
      rw [← ha, ← hl]
      refine ⟨by simp [pending, pendingFrom], ?_, ?_⟩
      · intro e s hes hk
        simp only [List.cons.injEq] at hes
        rw [← hes.1] at hk
        simp [Event.isGenerate, Event.isStart] at hk
      · intro g1 pid1 s hes
        simp at hes
    | cons b m =>
      simp only [List.cons_append, List.cons.injEq] at hl
      have hm : m = [] ∧ t = [] := by
        have := hl.2
        cases m with
        | nil => exact ⟨rfl, by simpa using this.symm⟩
        | cons c n => simp at this
      obtain ⟨hm1, hm2⟩ := hm
      subst hm1; subst hm2
      rw [← ha, ← hl.1]
      refine ⟨by simp [pending, pendingFrom], ?_, ?_⟩
      · intro e s hes; simp at hes
      · intro g1 pid1 s hes; simp at hes

theorem iteration_serialized (first : Bool) (env : Env) (w : IterWorld) :
    Serialized (iteration true first env w).events := by
  rw [iteration_events]
  cases w.startOk <;> cases first <;> cases w.config.autoUser.isEmpty <;>
    cases (env "DISPLAY").isNone <;>
    simp only [Bool.false_eq_true, if_false, if_true, and_self, and_true, and_false,
      true_and, false_and] <;>
    first
      | (refine serialized_plain _ ?_
         simp [Event.isSpawn, Event.isWait]
         done)
      | (simp only [← List.append_assoc]
         refine serialized_append _ _ (serialized_plain _ ?_) (serialized_execute_wait _ _)
         simp [Event.isSpawn, Event.isWait])

theorem serialized_flatten (l : List IterResult) (h : ∀ r ∈ l, Serialized r.events) :
    Serialized ((l.map (fun i => i.events)).flatten) := by
  induction l with
  | nil => exact serialized_nil
  | cons r l ih =>
    simp only [List.map_cons, List.flatten_cons]
    exact serialized_append _ _ (h r (List.mem_cons_self _ _))
      (ih (fun x hx => h x (List.mem_cons_of_mem _ hx)))

theorem run_serialized (w : World) (fuel : Nat) : Serialized (run true w fuel).trace := by
  unfold RunResult.trace
  apply serialized_append
  · have : (run true w fuel).pre = [.lockFile w.config.lockFile] := by
      unfold run
      cases w.lockOk <;> simp
    rw [this]
    exact serialized_single _ rfl rfl
  · apply serialized_flatten
    intro r hr
    obtain ⟨first, i, hri⟩ := run_iters_mem true w fuel r hr
    rw [hri]
    exact iteration_serialized _ _ _

/-- C7: in the Qt 5 build, at every point of a run (after the calls `p`, before
the calls `t`) at most one spawned greeter is not yet waited for; none is
when the next call is `Cookie::generate` or `DisplayManager::start`; and when
the next call is a `Util::execute` that returns `pid`, the call after it is
`Util::wait(pid)`. -/
theorem greeter_waited_before_next_pass (w : World) (fuel : Nat) (p t : List Event)
    (h : (run true w fuel).trace = p ++ t) :
    (pending p).length ≤ 1 ∧
    (∀ e s, t = e :: s → (e.isGenerate = true ∨ e.isStart = true) → pending p = []) ∧
    (∀ g pid s, t = Event.utilExecute g pid :: s → ∃ s1, s = Event.utilWait pid :: s1) :=
  (run_serialized w fuel).2 p t h

/-- Witness of C7: the point of a run just before the greeter is spawned. -/
theorem greeter_waited_before_next_pass_witness :
    (pending ((run true sameCookieWorld 2).trace.take 12)).length ≤ 1 ∧
    (∀ e s, (run true sameCookieWorld 2).trace.drop 12 = e :: s →
      (e.isGenerate = true ∨ e.isStart = true) →
      pending ((run true sameCookieWorld 2).trace.take 12) = []) ∧
    (∀ g pid s, (run true sameCookieWorld 2).trace.drop 12 = Event.utilExecute g pid :: s →
      ∃ s1, s = Event.utilWait pid :: s1) :=
  greeter_waited_before_next_pass sameCookieWorld 2
    ((run true sameCookieWorld 2).trace.take 12) ((run true sameCookieWorld 2).trace.drop 12)
    (List.take_append_drop 12 _).symm

/-! ## The environment -/

theorem cstr_of_nulFree (s : String) (h : nulFree s) : cstr s = s := by
  unfold cstr
  have : s.data.takeWhile (fun c => c != Char.ofNat 0) = s.data := by
    rw [List.takeWhile_eq_self_iff]
    intro c hc
    simp only [bne_iff_ne, ne_eq]
    intro hc0
    exact h (hc0 ▸ hc)
  rw [this]

theorem iteration_env (qt5 first : Bool) (env : Env) (w : IterWorld) :
    (iteration qt5 first env w).env =
      setenv (if (env "DISPLAY").isNone = true then setenv env "DISPLAY" ":0" else env)
        "XCURSOR_THEME" (cstr w.config.cursorTheme) := by
  unfold iteration getenv
  simp only []
  split
  · rfl
  · split <;> rfl

theorem iteration_displaysUsed (qt5 first : Bool) (env : Env) (w : IterWorld) :
    displaysUsed (iteration qt5 first env w).events =
      if w.startOk = true then [(env "DISPLAY").getD ":0", (env "DISPLAY").getD ":0"]
      else [(env "DISPLAY").getD ":0"] := by
  rw [iteration_events]
  cases w.startOk <;> cases first <;> cases w.config.autoUser.isEmpty <;> cases qt5 <;>
    cases (env "DISPLAY").isNone <;> simp [displaysUsed]

theorem iteration_setenv_before_start (qt5 first : Bool) (env : Env) (w : IterWorld) :
    ∃ pre post, (iteration qt5 first env w).events = pre ++ Event.dmStart w.startOk :: post ∧
      pre.filter Event.isSetenv =
        (if (env "DISPLAY").isNone = true then [Event.setenv "DISPLAY" ":0"] else []) ++
          [Event.setenv "XCURSOR_THEME" (cstr w.config.cursorTheme)] ∧
      pre.countP Event.isStart = 0 ∧ post.countP Event.isSetenv = 0 := by
  refine ⟨(iteration qt5 first env w).events.takeWhile (fun e => !e.isStart),
    ((iteration qt5 first env w).events.dropWhile (fun e => !e.isStart)).tail, ?_⟩
  rw [iteration_events]
  cases w.startOk <;> cases first <;> cases w.config.autoUser.isEmpty <;> cases qt5 <;>
    cases (env "DISPLAY").isNone <;>
    simp [Event.isSetenv, Event.isStart, List.countP_cons, List.filter_cons,
      List.takeWhile_cons, List.dropWhile_cons]

theorem run_envIn_zero (qt5 : Bool) (w : World) (fuel : Nat) (r : IterResult)
    (h : (run qt5 w fuel).iters[0]? = some r) : r.envIn = w.env := by
  unfold run at h
  cases hl : w.lockOk with
  | false => simp [hl] at h
  | true =>
    simp only [hl, Bool.not_true, Bool.false_eq_true, if_false] at h
    exact loop_envIn_zero qt5 w.iter fuel 0 true w.env r h

theorem run_envIn_succ (qt5 : Bool) (w : World) (fuel i : Nat) (r r1 : IterResult)
    (h : (run qt5 w fuel).iters[i]? = some r) (h1 : (run qt5 w fuel).iters[i + 1]? = some r1) :
    r1.envIn = r.env := by
  unfold run at h h1
  cases hl : w.lockOk with
  | false => simp [hl] at h
  | true =>
    simp only [hl, Bool.not_true, Bool.false_eq_true, if_false] at h h1
    exact loop_envIn_succ qt5 w.iter fuel 0 true w.env i r r1 h h1

/-- C10, as the claim states it, fails: a cursor theme setting with a NUL
character inside reaches `setenv` through `c_str()`, and `XCURSOR_THEME` gets
the text before the NUL only. -/
theorem cursor_theme_cut_at_nul :
    (run true nulCursorWorld 1).iters.map (fun r => r.env "XCURSOR_THEME") = [some "a"] ∧
    (nulCursorWorld.iter 0).config.cursorTheme ≠ "a" := by
  decide

/-- C10, amended: a pass of `run` starts from the environment left by the pass
before it (the environment at entry for the first pass); in it `DISPLAY` becomes
`":0"` if it was unset and keeps its value if it was set, also to the empty
text; both managers get the resulting value of `DISPLAY` as display id;
`XCURSOR_THEME` becomes the reloaded cursor theme up to its first NUL character,
which is the whole cursor theme when it has no NUL; no other variable changes;
and the `setenv` calls come before `displayManager.start()`. -/
theorem environment_set_before_display_start (qt5 : Bool) (w : World) (fuel i : Nat)
    (r : IterResult) (h : (run qt5 w fuel).iters[i]? = some r) :
    (i = 0 → r.envIn = w.env) ∧
    (∀ j r0, i = j + 1 → (run qt5 w fuel).iters[j]? = some r0 → r.envIn = r0.env) ∧
    (r.envIn "DISPLAY" = none → r.env "DISPLAY" = some ":0") ∧
    (∀ v, r.envIn "DISPLAY" = some v → r.env "DISPLAY" = some v) ∧
    (displaysUsed r.events ≠ [] ∧ ∀ d ∈ displaysUsed r.events, r.env "DISPLAY" = some d) ∧
    r.env "XCURSOR_THEME" = some (cstr (w.iter i).config.cursorTheme) ∧
    (nulFree (w.iter i).config.cursorTheme →
      r.env "XCURSOR_THEME" = some (w.iter i).config.cursorTheme) ∧
    (∀ name, name ≠ "DISPLAY" → name ≠ "XCURSOR_THEME" → r.env name = r.envIn name) ∧
    (∃ pre post, r.events = pre ++ Event.dmStart (w.iter i).startOk :: post ∧
      pre.filter Event.isSetenv =
        (if (r.envIn "DISPLAY").isNone = true then [Event.setenv "DISPLAY" ":0"] else []) ++
          [Event.setenv "XCURSOR_THEME" (cstr (w.iter i).config.cursorTheme)] ∧
      pre.countP Event.isStart = 0 ∧ post.countP Event.isSetenv = 0) := by
  obtain ⟨_, hri, _, _⟩ := run_iters_getElem? qt5 w fuel i r h
  have henv := congrArg IterResult.env hri
  have hev := congrArg IterResult.events hri
  have hdu := congrArg (fun x => displaysUsed x.events) hri
  simp only [] at hdu
  rw [iteration_env] at henv
  rw [iteration_displaysUsed] at hdu
  have hcur : r.env "XCURSOR_THEME" = some (cstr (w.iter i).config.cursorTheme) := by
    rw [henv]; simp [setenv]
  have hdisp : r.env "DISPLAY" = some ((r.envIn "DISPLAY").getD ":0") := by
    rw [henv]
    cases hd : r.envIn "DISPLAY" <;> simp [setenv, hd]
  refine ⟨?_, ?_, ?_, ?_, ?_, hcur, ?_, ?_, ?_⟩
  · intro hi
    subst hi
    exact run_envIn_zero qt5 w fuel r h
  · intro j r0 hj h0
    subst hj
    exact run_envIn_succ qt5 w fuel j r0 r h0 h
  · intro hd
    rw [hdisp, hd]; rfl
  · intro v hd
    rw [hdisp, hd]; rfl
  · rw [hdu, hdisp]
    cases (w.iter i).startOk <;> simp
  · intro hn
    rw [hcur, cstr_of_nulFree _ hn]
  · intro name h1 h2
    rw [henv]
    cases hd : (r.envIn "DISPLAY").isNone <;> simp [setenv, h1, h2]
  · obtain ⟨pre, post, h1, h2⟩ :=
      iteration_setenv_before_start qt5 (decide (i = 0)) r.envIn (w.iter i)
    exact ⟨pre, post, by rw [hev, h1], h2⟩

/-- Witness of amended C10: the first pass of a run entered without `DISPLAY`. -/
theorem environment_set_before_display_start_witness :
    (iteration true true sameCookieWorld.env (sameCookieWorld.iter 0)).env "DISPLAY" =
      some ":0" ∧
    (iteration true true sameCookieWorld.env (sameCookieWorld.iter 0)).env "XCURSOR_THEME" =
      some "default" :=
  have h := environment_set_before_display_start true sameCookieWorld 1 0
    (iteration true true sameCookieWorld.env (sameCookieWorld.iter 0)) rfl
  ⟨h.2.2.1 rfl, h.2.2.2.2.2.2.1 (by decide)⟩

/-! ## Theme paths -/

/-- C9: where the themes directory contains the text `%1`, `themePath` is not
the themes directory, `/` and the theme name: the second `arg` replaces the `%1`
inside the directory and leaves the `%2` of the format. -/
theorem themePath_with_marker_in_directory :
    themePath markerConfig = "/usr/share/elarun/%2" ∧
    themePath markerConfig ≠ markerConfig.themesDir ++ "/" ++ markerConfig.currentTheme ∧
    testThemePath markerConfig "" = "/usr/share/elarun/%2" ∧
    metadataPath (themePath markerConfig) = "/usr/share/elarun/%2/metadata.desktop" ∧
    mainScriptPath (themePath markerConfig) sampleMetadata =
      "/usr/share/elarun/Main.qml/Main.qml" := by
  decide

theorem scan_normal_of_no_percent (a rest : List Char) (h : '%' ∉ a) :
    scan .normal (a ++ rest) = a.map Piece.lit ++ scan .normal rest := by
  induction a with
  | nil => rfl
  | cons c cs ih =>
    have hc : c ≠ '%' := fun e => h (e ▸ List.mem_cons_self _ _)
    have hcs : '%' ∉ cs := fun m => h (List.mem_cons_of_mem _ m)
    simp [scan, hc, ih hcs]

theorem minEscape_lit_append (a : List Char) (ps : List Piece) :
    minEscape (a.map Piece.lit ++ ps) = minEscape ps := by
  induction a with
  | nil => rfl
  | cons c cs ih => simpa [minEscape] using ih

theorem replaceEscapes_lit_append (m : Nat) (b a : List Char) (ps : List Piece) :
    replaceEscapes m b (a.map Piece.lit ++ ps) = a ++ replaceEscapes m b ps := by
  induction a with
  | nil => rfl
  | cons c cs ih => simpa [replaceEscapes] using ih

theorem arg_join_format (a : String) : arg "%1/%2" a = ⟨a.data ++ ['/', '%', '2']⟩ := by
  rfl

theorem arg_metadata_format (a : String) :
    metadataPath a = a ++ "/metadata.desktop" := by
  rfl

/-- Where the first argument has no `%`, `QString("%1/%2").arg(a).arg(b)` is
`a`, `/` and `b`. -/
theorem joinPath_of_no_percent (a b : String) (h : '%' ∉ a.data) :
    joinPath a b = a ++ "/" ++ b := by
  unfold joinPath
  rw [arg_join_format]
  unfold arg
  simp only []
  have hs : scan .normal ['/', '%', '2'] = [.lit '/', .marker 2 ['%', '2']] := by decide
  rw [scan_normal_of_no_percent a.data ['/', '%', '2'] h, minEscape_lit_append, hs]
  have hm : minEscape [.lit '/', .marker 2 ['%', '2']] = some 2 := by decide
  rw [hm]
  simp only []
  rw [replaceEscapes_lit_append]
  apply String.ext
  simp [replaceEscapes, String.data_append]

/-- Where neither the themes directory nor the theme name has a `%`, the four
paths of theme resolution are the plain concatenations. -/
theorem theme_paths_of_no_percent (cfg : Configuration) (md : ThemeMetadata)
    (hD : '%' ∉ cfg.themesDir.data) (hT : '%' ∉ cfg.currentTheme.data) :
    themePath cfg = cfg.themesDir ++ "/" ++ cfg.currentTheme ∧
    metadataPath (themePath cfg) =
      cfg.themesDir ++ "/" ++ cfg.currentTheme ++ "/metadata.desktop" ∧
    mainScriptPath (themePath cfg) md =
      cfg.themesDir ++ "/" ++ cfg.currentTheme ++ "/" ++ md.mainScript ∧
    configFilePath (themePath cfg) md =
      cfg.themesDir ++ "/" ++ cfg.currentTheme ++ "/" ++ md.configFile := by
  have hp : themePath cfg = cfg.themesDir ++ "/" ++ cfg.currentTheme :=
    joinPath_of_no_percent _ _ hD
  have hno : '%' ∉ (cfg.themesDir ++ "/" ++ cfg.currentTheme).data := by
    simp only [String.data_append, List.mem_append, not_or]
    exact ⟨⟨hD, by decide⟩, hT⟩
  refine ⟨hp, ?_, ?_, ?_⟩
  · rw [hp, arg_metadata_format]
  · rw [hp]; exact joinPath_of_no_percent _ _ hno
  · rw [hp]; exact joinPath_of_no_percent _ _ hno

end SDE
